import Mathlib

/-!
Shallow embedding of `RecordEEGPersonality.py`, a tkinter GUI that records
EEG segments from a Muse 2 headband.  The GUI state, the recording state
machine (`toggle_recording`), persistence (`save_data`,
`update_duration_file`) and the connection monitor loop
(`monitor_muse_connection`) are translated into pure Lean definitions.
Wall-clock times and sample values are modelled as rationals; the
filesystem is an association list from filename to file content; a
`fsErr` predicate marks filenames for which opening for writing raises
an OSError, so that the exception-propagation behaviour of the save path
can be stated.  User interaction is a list of events consumed by a step
function; a tkinter callback that raises an uncaught exception is
recorded by bumping the `exn` counter (tkinter reports the traceback and
the main loop continues).
-/

/-- State of one tkinter button: its text and whether it is `tk.NORMAL`. -/
structure BState where
  label : String
  enabled : Bool
deriving DecidableEq, Repr

/-- The five segment keys, in the order the buttons are declared. -/
inductive Key
  | EC
  | EO
  | P1
  | P2
  | P3
deriving DecidableEq, Repr

/-- The string key used in filenames and the durations dict. -/
def Key.str : Key → String
  | .EC => "EC"
  | .EO => "EO"
  | .P1 => "Personality1"
  | .P2 => "Personality2"
  | .P3 => "Personality3"

/-- The `self.buttons` dict: fixed five entries, insertion order EC..P3. -/
structure Buttons where
  ec : BState
  eo : BState
  p1 : BState
  p2 : BState
  p3 : BState
deriving DecidableEq, Repr

/-- `self.buttons[key]`. -/
def Buttons.get (bs : Buttons) : Key → BState
  | .EC => bs.ec
  | .EO => bs.eo
  | .P1 => bs.p1
  | .P2 => bs.p2
  | .P3 => bs.p3

/-- `self.buttons[key].config(...)`. -/
def Buttons.set (bs : Buttons) : Key → BState → Buttons
  | .EC, v => { bs with ec := v }
  | .EO, v => { bs with eo := v }
  | .P1, v => { bs with p1 := v }
  | .P2, v => { bs with p2 := v }
  | .P3, v => { bs with p3 := v }

/-- `get_next_key`: the successor of a key in the declared button order
(`keys[current_index + 1]` if it exists, else `None`). -/
def get_next_key : Key → Option Key
  | .EC => some .EO
  | .EO => some .P1
  | .P1 => some .P2
  | .P2 => some .P3
  | .P3 => none

/-- One CSV cell: the header cells are strings, data cells are numbers. -/
inductive Cell
  | s (v : String)
  | q (v : ℚ)
deriving DecidableEq, Repr

/-- Content of one file on disk. -/
inductive FileData
  | csv (rows : List (List Cell))
  | txt (lines : List String)
deriving DecidableEq, Repr

/-- Python dict lookup on an insertion-ordered association list. -/
def dictGet {α : Type} : List (String × α) → String → Option α
  | [], _ => none
  | (k', v) :: t, k => if k' = k then some v else dictGet t k

/-- Python dict assignment `d[k] = v`: replaces in place if the key is
present (keeping its position), otherwise appends. -/
def dictSet {α : Type} : List (String × α) → String → α → List (String × α)
  | [], k, v => [(k, v)]
  | (k', v') :: t, k, v =>
    if k' = k then (k, v) :: t else (k', v') :: dictSet t k v

/-- The whole observable state of the running program: the `EEGRecorderApp`
attributes, the widgets the code mutates, the files written so far, the
confirmations shown, and a counter of exceptions that escaped a callback. -/
structure AppState where
  statusText : String
  recording : Bool
  stopwatch_running : Bool
  start_time : Option ℚ
  data : List (List ℚ)
  participant_id : Option String
  durations : List (String × ℚ)
  buttons : Buttons
  tfExists : Bool
  tfVisible : Bool
  entryText : String
  stopwatchLabel : String
  files : List (String × FileData)
  confirms : List String
  exn : Nat
deriving DecidableEq, Repr

/-- The state built by `__init__`. -/
def initState : AppState where
  statusText := "Status: Not connected to Muse 2"
  recording := false
  stopwatch_running := false
  start_time := none
  data := []
  participant_id := none
  durations := []
  buttons :=
    ⟨⟨"Record Eyes Closed", false⟩, ⟨"Record Eyes Opened", false⟩,
     ⟨"Record Personality 1", false⟩, ⟨"Record Personality 2", false⟩,
     ⟨"Record Personality 3", false⟩⟩
  tfExists := false
  tfVisible := false
  entryText := ""
  stopwatchLabel := "Stopwatch: 00:00:00"
  files := []
  confirms := []
  exn := 0

/-- `f"{self.participant_id}"`: Python renders `None` as the text `None`. -/
def getPid (st : AppState) : String :=
  match st.participant_id with
  | none => "None"
  | some s => s

/-- `disable_buttons`: sets every button to `tk.DISABLED`, labels kept. -/
def disable_buttons (st : AppState) : AppState :=
  { st with buttons :=
      ⟨⟨st.buttons.ec.label, false⟩, ⟨st.buttons.eo.label, false⟩,
       ⟨st.buttons.p1.label, false⟩, ⟨st.buttons.p2.label, false⟩,
       ⟨st.buttons.p3.label, false⟩⟩ }

/-- `enable_buttons`: stores the stripped entry text as the participant id
and, if it is non-empty, sets the EC button to `tk.NORMAL`. -/
def enable_buttons (st : AppState) : AppState :=
  let p := st.entryText.trim
  let st1 := { st with participant_id := some p }
  if p = "" then st1
  else { st1 with buttons := st1.buttons.set .EC ⟨(st1.buttons.get .EC).label, true⟩ }

/-- `show_text_field`: creates the frame and entry on first use (entry
starts empty), then makes the frame visible. -/
def show_text_field (st : AppState) : AppState :=
  if st.tfExists then { st with tfVisible := true }
  else { st with tfExists := true, tfVisible := true, entryText := "" }

/-- `hide_text_field`: hides the frame if it was ever created. -/
def hide_text_field (st : AppState) : AppState :=
  if st.tfExists then { st with tfVisible := false } else st

/-- `on_connection`. -/
def on_connection (st : AppState) : AppState :=
  show_text_field { st with statusText := "Status: Connected to Muse 2" }

/-- `on_disconnection`. -/
def on_disconnection (st : AppState) : AppState :=
  disable_buttons (hide_text_field { st with statusText := "Status: Not connected to Muse 2" })

/-- `reset_stopwatch`. -/
def reset_stopwatch (st : AppState) : AppState :=
  { st with stopwatchLabel := "Stopwatch: 00:00:00" }

/-- Floor of a rational, as in the Batteries function `Rat.floor`. -/
def ratFloor (x : ℚ) : ℤ := Rat.floor x

/-- Round to the nearest integer, ties to even: the rounding `float.__format__`
applies to the (here exactly represented) value. -/
def roundHalfEven (x : ℚ) : ℤ :=
  let f := ratFloor x
  let r := x - (f : ℚ)
  if r < 1 / 2 then f
  else if 1 / 2 < r then f + 1
  else if f % 2 = 0 then f else f + 1

/-- Digits of `m % 100`, zero padded to width 2. -/
def twoDigits (m : Nat) : String :=
  if m % 100 < 10 then "0" ++ toString (m % 100) else toString (m % 100)

/-- `f"{x:.2f}"` for a non-negative-rounding value; negative values get a
leading minus sign. -/
def format2 (x : ℚ) : String :=
  let n := roundHalfEven (x * 100)
  if n < 0 then "-" ++ toString (n.natAbs / 100) ++ "." ++ twoDigits n.natAbs
  else "" ++ toString (n.toNat / 100) ++ "." ++ twoDigits n.toNat

/-- The fixed CSV header row written by `save_data`. -/
def headerRow : List Cell :=
  [.s "timestamps", .s "TP9", .s "AF7", .s "AF8", .s "TP10", .s "Right AUX"]

/-- One line of the duration file: `f"{key}: {duration:.2f} seconds"`. -/
def durationLine (kd : String × ℚ) : String :=
  kd.1 ++ ": " ++ format2 kd.2 ++ " seconds"

/-- The full content of the duration file written by `update_duration_file`. -/
def durationLines (pid : String) (ds : List (String × ℚ)) : List String :=
  ("Participant ID: " ++ pid) :: ds.map durationLine

/-- `update_duration_file`: rewrites `<pid>_duration.txt` from the in-memory
durations dict.  Returns `false` when `open` raised (per `fsErr`). -/
def update_duration_file (fsErr : String → Bool) (st : AppState) : AppState × Bool :=
  let fn := getPid st ++ "_duration.txt"
  if fsErr fn then (st, false)
  else ({ st with files := dictSet st.files fn (.txt (durationLines (getPid st) st.durations)) }, true)

/-- `save_data`: records the duration, writes the CSV data file, rewrites the
duration file, then shows the confirmation.  Returns `false` when an
exception was raised part way (the mutations already made persist). -/
def save_data (fsErr : String → Bool) (st : AppState) (key : Key) (end_time : ℚ) :
    AppState × Bool :=
  match st.start_time with
  | none => (st, false)
  | some t0 =>
    let dur := end_time - t0
    let st1 := { st with durations := dictSet st.durations key.str dur }
    let fn := getPid st1 ++ "_" ++ key.str ++ ".csv"
    if fsErr fn then (st1, false)
    else
      let content := FileData.csv (headerRow :: st1.data.map (fun r => r.map Cell.q))
      let st2 := { st1 with files := dictSet st1.files fn content }
      let r := update_duration_file fsErr st2
      if r.2 then
        ({ r.1 with confirms := r.1.confirms ++ [key.str ++ " data saved to " ++ fn] }, true)
      else (r.1, false)

/-- `toggle_recording`.  The stop branch clears the two flags, saves, resets
the stopwatch display, disables the pressed button (relabelling it
`Record <key>`) and enables the next button if any; when `save_data` raised,
the remaining statements of the callback are skipped and the exception
escapes to the tkinter main loop (`exn` is bumped).  The start branch sets
the flags, captures the start time, clears the sample buffer and relabels
the pressed button. -/
def toggle_recording (fsErr : String → Bool) (st : AppState) (key : Key) (now : ℚ) :
    AppState :=
  if st.recording then
    let st1 := { st with recording := false, stopwatch_running := false }
    let r := save_data fsErr st1 key now
    if r.2 then
      let st3 := reset_stopwatch r.1
      let st4 := { st3 with buttons := st3.buttons.set key ⟨"Record " ++ key.str, false⟩ }
      match get_next_key key with
      | some nk =>
        { st4 with buttons := st4.buttons.set nk ⟨(st4.buttons.get nk).label, true⟩ }
      | none => st4
    else { r.1 with exn := r.1.exn + 1 }
  else
    let st1 := { st with recording := true, start_time := some now, data := [] }
    let st2 := { st1 with stopwatch_running := true }
    { st2 with buttons := st2.buttons.set key ⟨"Stop Recording", (st2.buttons.get key).enabled⟩ }

/-- An externally observable event delivered to the program: a connect or
disconnect transition from the monitor, a key release in the participant
entry (carrying the new entry text), a press of one of the five segment
buttons at a wall-clock time, or one sample delivered by `pull_sample`
(as `(sample, timestamp)`). -/
inductive Event
  | connect
  | disconnect
  | keyRelease (text : String)
  | press (key : Key) (now : ℚ)
  | sample (ts : ℚ) (vals : List ℚ)

/-- One event step.  A key release reaches the entry only while the entry
exists and is visible; a button press fires its command only while the
button is `tk.NORMAL`; `record_data` appends `[timestamp] + sample` only
while the recording flag is set. -/
def step (fsErr : String → Bool) (st : AppState) : Event → AppState
  | .connect => on_connection st
  | .disconnect => on_disconnection st
  | .keyRelease s =>
    if st.tfExists && st.tfVisible then enable_buttons { st with entryText := s } else st
  | .press k now =>
    if (st.buttons.get k).enabled then toggle_recording fsErr st k now else st
  | .sample ts vals =>
    if st.recording then { st with data := st.data ++ [ts :: vals] } else st

/-- Run a list of events. -/
def run (fsErr : String → Bool) (st : AppState) : List Event → AppState
  | [] => st
  | e :: es => run fsErr (step fsErr st e) es

/-- The filesystem never fails. -/
def noFail : String → Bool := fun _ => false

/-- True when some event of the list is a press of button `k` that fires
(the button is `tk.NORMAL`) while the recording flag is set — i.e. a stop
action carried out through button `k`. -/
def stopPressIn (fsErr : String → Bool) : AppState → List Event → Key → Bool
  | _, [], _ => false
  | st, e :: es, k =>
    (match e with
     | .press k' _ => decide (k' = k) && (st.buttons.get k').enabled && st.recording
     | _ => false) || stopPressIn fsErr (step fsErr st e) es k

/-- True when some event of the list is a press of button `k` that fires
while the recording flag is clear — i.e. a start action on segment `k`. -/
def startPressIn (fsErr : String → Bool) : AppState → List Event → Key → Bool
  | _, [], _ => false
  | st, e :: es, k =>
    (match e with
     | .press k' _ => decide (k' = k) && (st.buttons.get k').enabled && !st.recording
     | _ => false) || startPressIn fsErr (step fsErr st e) es k

/-- The stored participant identifier is a non-empty string. -/
def pidNE (st : AppState) : Bool :=
  match st.participant_id with
  | none => false
  | some s => !(s == "")

/-- True when the participant identifier is non-empty at some point along
the run (initial, intermediate or final state). -/
def pidEverIn (fsErr : String → Bool) : AppState → List Event → Bool
  | st, [] => pidNE st
  | st, e :: es => pidNE st || pidEverIn fsErr (step fsErr st e) es

/-- Some segment button is `tk.NORMAL`. -/
def anyEnabled (st : AppState) : Bool :=
  st.buttons.ec.enabled || st.buttons.eo.enabled || st.buttons.p1.enabled ||
    st.buttons.p2.enabled || st.buttons.p3.enabled

/-- Outcome of one `resolve_stream` poll for EEG streams: a non-empty list
of streams, an empty list, or a raised exception. -/
inductive Discovery
  | found
  | notFound
  | err
deriving DecidableEq, Repr

/-- A signal raised to the session controller by the monitor loop. -/
inductive Signal
  | connected
  | disconnected
deriving DecidableEq, Repr

/-- One iteration of the `while True` body of `monitor_muse_connection`
(minus the unconditional 1-second sleep): takes the `connected` flag of
the loop, returns the new flag and the signals raised. -/
def monitorStep (c : Bool) : Discovery → Bool × List Signal
  | .found => if c then (true, []) else (true, [.connected])
  | .notFound => if c then (false, [.disconnected]) else (false, [])
  | .err => if c then (false, [.disconnected]) else (false, [])

/-- The monitor loop over a finite prefix of its infinite poll sequence:
every poll is processed, whatever its outcome. -/
def monitorRun (c : Bool) : List Discovery → Bool × List Signal
  | [] => (c, [])
  | d :: ds =>
    let r := monitorStep c d
    let rest := monitorRun r.1 ds
    (rest.1, r.2 ++ rest.2)


theorem Buttons.get_set (bs : Buttons) (a j : Key) (v : BState) :
    (bs.set a v).get j = if j = a then v else bs.get j := by
  cases a <;> cases j <;> simp [Buttons.get, Buttons.set]

theorem get_next_key_inj (a b c : Key) :
    get_next_key a = some c → get_next_key b = some c → a = b := by
  cases a <;> cases b <;> cases c <;> simp [get_next_key]

theorem get_next_key_ne_self (a b : Key) : get_next_key a = some b → b ≠ a := by
  cases a <;> cases b <;> simp [get_next_key]

theorem dictGet_set_self {α : Type} (l : List (String × α)) (k : String) (v : α) :
    dictGet (dictSet l k v) k = some v := by
  induction l with
  | nil => simp [dictGet, dictSet]
  | cons h t ih =>
    obtain ⟨k', v'⟩ := h
    by_cases hk : k' = k
    · subst hk; simp [dictGet, dictSet]
    · simp [dictGet, dictSet, hk, ih]

theorem dictGet_set_ne {α : Type} (l : List (String × α)) (k k' : String) (v : α)
    (h : k' ≠ k) : dictGet (dictSet l k v) k' = dictGet l k' := by
  induction l with
  | nil =>
    simp only [dictSet, dictGet]
    rw [if_neg (Ne.symm h)]
  | cons hd t ih =>
    obtain ⟨k'', v''⟩ := hd
    by_cases hk : k'' = k
    · subst hk
      simp only [dictSet, if_pos rfl, dictGet]
      rw [if_neg (Ne.symm h), if_neg (Ne.symm h)]
    · simp only [dictSet, if_neg hk, dictGet, ih]

theorem dictSet_absent {α : Type} (l : List (String × α)) (k : String) (v : α)
    (h : dictGet l k = none) : dictSet l k v = l ++ [(k, v)] := by
  induction l with
  | nil => simp [dictSet]
  | cons hd t ih =>
    obtain ⟨k', v'⟩ := hd
    by_cases hk : k' = k
    · simp [dictGet, hk] at h
    · simp only [dictGet, if_neg hk] at h
      simp [dictSet, hk, ih h]

theorem buttons_show_text_field (st : AppState) :
    (show_text_field st).buttons = st.buttons := by
  unfold show_text_field; split <;> rfl

theorem buttons_hide_text_field (st : AppState) :
    (hide_text_field st).buttons = st.buttons := by
  unfold hide_text_field; split <;> rfl

theorem buttons_on_connection (st : AppState) :
    (on_connection st).buttons = st.buttons := by
  unfold on_connection; rw [buttons_show_text_field]

theorem get_on_disconnection (st : AppState) (k : Key) :
    ((on_disconnection st).buttons.get k) = ⟨(st.buttons.get k).label, false⟩ := by
  unfold on_disconnection disable_buttons
  rw [show (hide_text_field { st with statusText := "Status: Not connected to Muse 2" }).buttons
      = st.buttons from buttons_hide_text_field _]
  cases k <;> rfl

theorem buttons_update_duration_file (fsErr : String → Bool) (st : AppState) :
    (update_duration_file fsErr st).1.buttons = st.buttons := by
  unfold update_duration_file; dsimp only; split <;> rfl

theorem buttons_save_data (fsErr : String → Bool) (st : AppState) (k : Key) (t : ℚ) :
    (save_data fsErr st k t).1.buttons = st.buttons := by
  unfold save_data
  cases st.start_time
  · rfl
  · dsimp only
    split
    · rfl
    · split <;> simp [buttons_update_duration_file]

/-- Normal form of the start branch of `toggle_recording` (derived). -/
def startState (st : AppState) (key : Key) (now : ℚ) : AppState :=
  { st with
    recording := true
    start_time := some now
    data := []
    stopwatch_running := true
    buttons := st.buttons.set key ⟨"Stop Recording", (st.buttons.get key).enabled⟩ }

/-- Normal form of a successful stop of segment `key` at time `now`, for a
recording started at `t0` with participant `p` (derived). -/
def stopState (st : AppState) (key : Key) (now t0 : ℚ) (p : String) : AppState :=
  let ds := dictSet st.durations key.str (now - t0)
  let fn := p ++ "_" ++ key.str ++ ".csv"
  let bs := st.buttons.set key ⟨"Record " ++ key.str, false⟩
  { st with
    recording := false
    stopwatch_running := false
    durations := ds
    files := dictSet
      (dictSet st.files fn (.csv (headerRow :: st.data.map (fun r => r.map Cell.q))))
      (p ++ "_duration.txt") (.txt (durationLines p ds))
    confirms := st.confirms ++ [key.str ++ " data saved to " ++ fn]
    stopwatchLabel := "Stopwatch: 00:00:00"
    buttons :=
      match get_next_key key with
      | some nk => bs.set nk ⟨(bs.get nk).label, true⟩
      | none => bs }

theorem toggle_start_eq (fsErr : String → Bool) (st : AppState) (k : Key) (now : ℚ)
    (h : st.recording = false) :
    toggle_recording fsErr st k now = startState st k now := by
  unfold toggle_recording startState
  simp [h]

theorem toggle_stop_eq (fsErr : String → Bool) (st : AppState) (k : Key) (now t0 : ℚ)
    (p : String) (hrec : st.recording = true) (ht : st.start_time = some t0)
    (hp : st.participant_id = some p)
    (hcsv : fsErr (p ++ "_" ++ k.str ++ ".csv") = false)
    (htxt : fsErr (p ++ "_duration.txt") = false) :
    toggle_recording fsErr st k now = stopState st k now t0 p := by
  simp [toggle_recording, save_data, update_duration_file, reset_stopwatch, getPid,
    stopState, hrec, ht, hp, hcsv, htxt]
  cases get_next_key k <;> rfl

theorem toggle_stop_txtfail_eq (fsErr : String → Bool) (st : AppState) (k : Key)
    (now t0 : ℚ) (p : String) (hrec : st.recording = true) (ht : st.start_time = some t0)
    (hp : st.participant_id = some p)
    (hcsv : fsErr (p ++ "_" ++ k.str ++ ".csv") = false)
    (htxt : fsErr (p ++ "_duration.txt") = true) :
    toggle_recording fsErr st k now =
      { st with
        recording := false
        stopwatch_running := false
        durations := dictSet st.durations k.str (now - t0)
        files := dictSet st.files (p ++ "_" ++ k.str ++ ".csv")
          (.csv (headerRow :: st.data.map (fun r => r.map Cell.q)))
        exn := st.exn + 1 } := by
  simp [toggle_recording, save_data, update_duration_file, getPid, hrec, ht, hp,
    hcsv, htxt]

theorem step_press (fsErr : String → Bool) (st : AppState) (k : Key) (now : ℚ)
    (he : (st.buttons.get k).enabled = true) :
    step fsErr st (.press k now) = toggle_recording fsErr st k now := by
  simp [step, he]

theorem run_append (fsErr : String → Bool) (st : AppState) (es1 es2 : List Event) :
    run fsErr st (es1 ++ es2) = run fsErr (run fsErr st es1) es2 := by
  induction es1 generalizing st with
  | nil => simp [run]
  | cons e es ih => simp [run, ih]

theorem run_samples (fsErr : String → Bool) (st : AppState) (samples : List (ℚ × List ℚ))
    (h : st.recording = true) :
    run fsErr st (samples.map (fun s => Event.sample s.1 s.2)) =
      { st with data := st.data ++ samples.map (fun s => s.1 :: s.2) } := by
  induction samples generalizing st with
  | nil => simp [run]
  | cons s ss ih =>
    simp only [List.map_cons, run, step, h, if_true]
    rw [ih]
    · simp
    · rfl

/-- The button updates of a completed stop with key `k` (derived). -/
def applyStop (bs : Buttons) (k : Key) : Buttons :=
  let b1 := bs.set k ⟨"Record " ++ k.str, false⟩
  match get_next_key k with
  | some nk => b1.set nk ⟨(b1.get nk).label, true⟩
  | none => b1

theorem toggle_buttons_cases (fsErr : String → Bool) (st : AppState) (k : Key) (t : ℚ) :
    (toggle_recording fsErr st k t).buttons
        = st.buttons.set k ⟨"Stop Recording", (st.buttons.get k).enabled⟩
    ∨ (toggle_recording fsErr st k t).buttons = st.buttons
    ∨ (st.recording = true ∧ (toggle_recording fsErr st k t).buttons = applyStop st.buttons k) := by
  unfold toggle_recording
  by_cases hr : st.recording = true
  · rw [if_pos hr]
    by_cases hs : (save_data fsErr
        { st with recording := false, stopwatch_running := false } k t).2 = true
    · right; right
      refine ⟨hr, ?_⟩
      rw [if_pos hs]
      have hb : (save_data fsErr
          { st with recording := false, stopwatch_running := false } k t).1.buttons
          = st.buttons := buttons_save_data _ _ _ _
      simp [applyStop, reset_stopwatch, hb]
      cases get_next_key k <;> simp [hb]
    · right; left
      rw [if_neg hs]
      exact buttons_save_data _ _ _ _
  · rw [if_neg hr]
    left; rfl

theorem toggle_enabled_cases (fsErr : String → Bool) (st : AppState) (k j : Key) (t : ℚ)
    (h : ((toggle_recording fsErr st k t).buttons.get j).enabled = true) :
    (st.buttons.get j).enabled = true
    ∨ (st.recording = true ∧ get_next_key k = some j) := by
  rcases toggle_buttons_cases fsErr st k t with hb | hb | ⟨hr, hb⟩
  · rw [hb, Buttons.get_set] at h
    by_cases hj : j = k
    · rw [if_pos hj] at h
      left; rw [hj]; exact h
    · rw [if_neg hj] at h
      left; exact h
  · rw [hb] at h; left; exact h
  · rw [hb] at h
    unfold applyStop at h
    cases hn : get_next_key k with
    | none =>
      rw [hn] at h
      rw [Buttons.get_set] at h
      by_cases hj : j = k
      · rw [if_pos hj] at h; simp at h
      · rw [if_neg hj] at h; left; exact h
    | some nk =>
      rw [hn] at h
      rw [Buttons.get_set] at h
      by_cases hj : j = nk
      · right; subst hj; exact ⟨hr, rfl⟩
      · rw [if_neg hj] at h
        rw [Buttons.get_set] at h
        by_cases hjk : j = k
        · rw [if_pos hjk] at h; simp at h
        · rw [if_neg hjk] at h; left; exact h

theorem get_enable_buttons_ne (st : AppState) (j : Key) (hj : j ≠ .EC) :
    ((enable_buttons st).buttons.get j) = st.buttons.get j := by
  unfold enable_buttons
  dsimp only
  split
  · rfl
  · rw [Buttons.get_set, if_neg hj]

theorem enabled_enable_buttons (st : AppState) (j : Key)
    (h : ((enable_buttons st).buttons.get j).enabled = true) :
    (st.buttons.get j).enabled = true ∨ j = .EC := by
  by_cases hj : j = .EC
  · right; exact hj
  · left; rw [get_enable_buttons_ne st j hj] at h; exact h

theorem step_enabled_cases (fsErr : String → Bool) (st : AppState) (e : Event) (j : Key)
    (h : ((step fsErr st e).buttons.get j).enabled = true) :
    (st.buttons.get j).enabled = true
    ∨ j = .EC
    ∨ (∃ k t, e = .press k t ∧ (st.buttons.get k).enabled = true ∧ st.recording = true
        ∧ get_next_key k = some j) := by
  cases e with
  | connect =>
    rw [show (step fsErr st .connect) = on_connection st from rfl] at h
    rw [show (on_connection st).buttons = st.buttons from buttons_on_connection st] at h
    left; exact h
  | disconnect =>
    rw [show (step fsErr st .disconnect) = on_disconnection st from rfl] at h
    rw [get_on_disconnection st j] at h
    simp at h
  | keyRelease s =>
    rw [show (step fsErr st (.keyRelease s))
        = if st.tfExists && st.tfVisible then enable_buttons { st with entryText := s } else st
      from rfl] at h
    split at h
    · rcases enabled_enable_buttons _ j h with h1 | h1
      · left; exact h1
      · right; left; exact h1
    · left; exact h
  | press k t =>
    rw [show (step fsErr st (.press k t))
        = if (st.buttons.get k).enabled then toggle_recording fsErr st k t else st
      from rfl] at h
    by_cases hk : (st.buttons.get k).enabled = true
    · rw [if_pos hk] at h
      rcases toggle_enabled_cases fsErr st k j t h with h1 | ⟨hr, hn⟩
      · left; exact h1
      · right; right; exact ⟨k, t, rfl, hk, hr, hn⟩
    · rw [if_neg hk] at h
      left; exact h
  | sample ts vals =>
    rw [show (step fsErr st (.sample ts vals))
        = if st.recording then { st with data := st.data ++ [ts :: vals] } else st
      from rfl] at h
    split at h
    · left; exact h
    · left; exact h

theorem no_next_ec (k : Key) : get_next_key k ≠ some .EC := by
  cases k <;> simp [get_next_key]

theorem stopPressIn_tail (fsErr : String → Bool) (st : AppState) (e : Event)
    (es : List Event) (k : Key) (h : stopPressIn fsErr (step fsErr st e) es k = true) :
    stopPressIn fsErr st (e :: es) k = true := by
  unfold stopPressIn
  rw [h]
  simp

theorem enabled_run_cases (fsErr : String → Bool) (es : List Event) (st : AppState)
    (j k' : Key) (hnext : get_next_key k' = some j)
    (h : ((run fsErr st es).buttons.get j).enabled = true) :
    stopPressIn fsErr st es k' = true ∨ (st.buttons.get j).enabled = true := by
  induction es generalizing st with
  | nil => right; exact h
  | cons e es ih =>
    rcases ih (step fsErr st e) h with hstop | hen
    · left; exact stopPressIn_tail fsErr st e es k' hstop
    · rcases step_enabled_cases fsErr st e j hen with h1 | h1 | ⟨k, t, rfl, hk, hr, hn⟩
      · right; exact h1
      · rw [h1] at hnext
        exact absurd hnext (no_next_ec k')
      · have hkk : k = k' := get_next_key_inj k k' j hn hnext
        subst hkk
        left
        unfold stopPressIn
        simp [hk, hr]

theorem enabled_anyEnabled (st : AppState) (j : Key)
    (h : (st.buttons.get j).enabled = true) : anyEnabled st = true := by
  cases j <;> simp [anyEnabled, Buttons.get] at h ⊢ <;> simp [h]

theorem anyEnabled_eq_of_buttons {st1 st2 : AppState} (h : st1.buttons = st2.buttons) :
    anyEnabled st1 = anyEnabled st2 := by
  simp [anyEnabled, h]

theorem anyEnabled_on_disconnection (st : AppState) :
    anyEnabled (on_disconnection st) = false := by
  unfold on_disconnection disable_buttons
  simp [anyEnabled]

theorem pidNE_pidEverIn (fsErr : String → Bool) (st : AppState) (es : List Event)
    (h : pidNE st = true) : pidEverIn fsErr st es = true := by
  cases es <;> simp [pidEverIn, h]

theorem step_anyEnabled (fsErr : String → Bool) (st : AppState) (e : Event)
    (h : anyEnabled (step fsErr st e) = true) :
    anyEnabled st = true ∨ pidNE (step fsErr st e) = true := by
  cases e with
  | connect =>
    left
    rw [show (step fsErr st .connect) = on_connection st from rfl,
      anyEnabled_eq_of_buttons (buttons_on_connection st)] at h
    exact h
  | disconnect =>
    rw [show (step fsErr st .disconnect) = on_disconnection st from rfl,
      anyEnabled_on_disconnection] at h
    simp at h
  | keyRelease s =>
    rw [show (step fsErr st (.keyRelease s))
        = if st.tfExists && st.tfVisible then enable_buttons { st with entryText := s } else st
      from rfl] at h ⊢
    split at h
    · by_cases hs : ({ st with entryText := s } : AppState).entryText.trim = ""
      · left
        unfold enable_buttons at h
        rw [if_pos hs] at h
        exact h
      · right
        unfold enable_buttons pidNE
        rw [if_neg hs]
        split <;> simp_all [pidNE]
    · left; exact h
  | press k t =>
    rw [show (step fsErr st (.press k t))
        = if (st.buttons.get k).enabled then toggle_recording fsErr st k t else st
      from rfl] at h
    by_cases hk : (st.buttons.get k).enabled = true
    · left; exact enabled_anyEnabled st k hk
    · rw [if_neg hk] at h; left; exact h
  | sample ts vals =>
    rw [show (step fsErr st (.sample ts vals))
        = if st.recording then { st with data := st.data ++ [ts :: vals] } else st
      from rfl] at h
    split at h
    · left; exact h
    · left; exact h

theorem anyEnabled_run (fsErr : String → Bool) (es : List Event) (st : AppState)
    (h : anyEnabled (run fsErr st es) = true) :
    pidEverIn fsErr st es = true ∨ anyEnabled st = true := by
  induction es generalizing st with
  | nil => right; exact h
  | cons e es ih =>
    rcases ih (step fsErr st e) h with hp | hen
    · left
      unfold pidEverIn
      rw [hp]
      simp
    · rcases step_anyEnabled fsErr st e hen with h1 | h2
      · right; exact h1
      · left
        unfold pidEverIn
        rw [pidNE_pidEverIn fsErr _ es h2]
        simp

theorem csv_ne_txt (p : String) (k : Key) :
    (p ++ "_" ++ k.str ++ ".csv") ≠ (p ++ "_duration.txt") := by
  intro h
  have h2 : p.data ++ ("_".data ++ (k.str.data ++ ".csv".data))
      = p.data ++ "_duration.txt".data := by
    have h1 := congrArg String.data h
    simpa [String.data_append, List.append_assoc] using h1
  have h3 := List.append_cancel_left h2
  cases k <;> exact absurd h3 (by decide)

theorem on_disconnection_eq (st : AppState) :
    on_disconnection st =
      { st with
        statusText := "Status: Not connected to Muse 2"
        tfVisible := st.tfVisible && !st.tfExists
        buttons :=
          ⟨⟨st.buttons.ec.label, false⟩, ⟨st.buttons.eo.label, false⟩,
           ⟨st.buttons.p1.label, false⟩, ⟨st.buttons.p2.label, false⟩,
           ⟨st.buttons.p3.label, false⟩⟩ } := by
  unfold on_disconnection hide_text_field disable_buttons
  split
  · next h =>
    simp at h
    simp [h]
  · next h =>
    simp at h
    simp [h]

/-- C9: the disconnect handler sets the status text to disconnected, hides
the participant-ID entry, and disables all five segment buttons (labels
kept), while the recording flag, the stopwatch flag, the sample buffer,
the durations mapping, the stored participant identifier, the start time
and the files on disk are all left unchanged: an in-progress recording is
neither stopped nor flushed by the disconnect transition. -/
theorem c9_disconnect_frame (st : AppState) :
    (step noFail st .disconnect).statusText = "Status: Not connected to Muse 2" ∧
    (∀ j : Key, ((step noFail st .disconnect).buttons.get j).enabled = false ∧
      ((step noFail st .disconnect).buttons.get j).label = (st.buttons.get j).label) ∧
    (step noFail st .disconnect).tfVisible = (st.tfVisible && !st.tfExists) ∧
    (step noFail st .disconnect).recording = st.recording ∧
    (step noFail st .disconnect).stopwatch_running = st.stopwatch_running ∧
    (step noFail st .disconnect).data = st.data ∧
    (step noFail st .disconnect).durations = st.durations ∧
    (step noFail st .disconnect).participant_id = st.participant_id ∧
    (step noFail st .disconnect).start_time = st.start_time ∧
    (step noFail st .disconnect).files = st.files ∧
    (step noFail st .disconnect).confirms = st.confirms := by
  rw [show (step noFail st .disconnect) = on_disconnection st from rfl, on_disconnection_eq]
  refine ⟨rfl, ?_, rfl, rfl, rfl, rfl, rfl, rfl, rfl, rfl, rfl⟩
  intro j
  cases j <;> exact ⟨rfl, rfl⟩

/-- C7: in the monitor loop, an exception from `resolve_stream` is handled
exactly like an empty stream list (a disconnect signal when currently
connected), an error while already disconnected raises no signal, at most
one signal is raised per poll, and the loop keeps processing subsequent
polls after any prefix (it never terminates on an error). -/
theorem c7_monitor_error_handling :
    (∀ c : Bool, monitorStep c .err = monitorStep c .notFound) ∧
    monitorStep false .err = (false, []) ∧
    monitorStep true .err = (false, [.disconnected]) ∧
    (∀ (c : Bool) (d : Discovery), (monitorStep c d).2.length ≤ 1) ∧
    (∀ (c : Bool) (ds1 ds2 : List Discovery),
      monitorRun c (ds1 ++ ds2)
        = ((monitorRun (monitorRun c ds1).1 ds2).1,
           (monitorRun c ds1).2 ++ (monitorRun (monitorRun c ds1).1 ds2).2)) := by
  refine ⟨?_, rfl, rfl, ?_, ?_⟩
  · intro c; cases c <;> rfl
  · intro c d; cases c <;> cases d <;> simp [monitorStep]
  · intro c ds1 ds2
    induction ds1 generalizing c with
    | nil => simp [monitorRun]
    | cons d ds ih => simp [monitorRun, ih]

/-- C6: a start action on segment `k` captures the start time, replaces the
sample buffer with an empty one, sets the recording and stopwatch flags,
and relabels the pressed button to `Stop Recording` (its enabled state
kept); every other field — durations, files, participant id, other
buttons — is unchanged. -/
theorem c6_start_frame (st : AppState) (k : Key) (t : ℚ)
    (hrec : st.recording = false) (he : (st.buttons.get k).enabled = true) :
    step noFail st (.press k t) =
      { st with
        recording := true
        start_time := some t
        data := []
        stopwatch_running := true
        buttons := st.buttons.set k ⟨"Stop Recording", (st.buttons.get k).enabled⟩ } ∧
    (step noFail st (.press k t)).durations = st.durations ∧
    (step noFail st (.press k t)).files = st.files ∧
    ((step noFail st (.press k t)).buttons.get k).label = "Stop Recording" ∧
    (∀ j : Key, j ≠ k →
      (step noFail st (.press k t)).buttons.get j = st.buttons.get j) := by
  have hs : step noFail st (.press k t) = startState st k t := by
    rw [step_press noFail st k t he, toggle_start_eq noFail st k t hrec]
  refine ⟨hs, ?_, ?_, ?_, ?_⟩
  · rw [hs]; rfl
  · rw [hs]; rfl
  · rw [hs]
    unfold startState
    show ((st.buttons.set k _).get k).label = _
    rw [Buttons.get_set, if_pos rfl]
  · intro j hj
    rw [hs]
    unfold startState
    show (st.buttons.set k _).get j = _
    rw [Buttons.get_set, if_neg hj]

/-- A reachable state used by witnesses: connected, participant `p` typed,
so the EC button is enabled. -/
def initWithEC : AppState := run noFail initState [.connect, .keyRelease "p"]

theorem c6_start_frame_witness :
    (initWithEC.recording = false ∧ (initWithEC.buttons.get .EC).enabled = true) ∧
    step noFail initWithEC (.press .EC 0) =
      { initWithEC with
        recording := true
        start_time := some 0
        data := []
        stopwatch_running := true
        buttons := initWithEC.buttons.set .EC
          ⟨"Stop Recording", (initWithEC.buttons.get .EC).enabled⟩ } :=
  ⟨⟨by with_unfolding_all rfl, by with_unfolding_all rfl⟩,
   (c6_start_frame initWithEC .EC 0 (by with_unfolding_all rfl)
     (by with_unfolding_all rfl)).1⟩

/-- C5: a stop action (press of enabled button `k` while recording) clears
the recording and stopwatch flags, writes the CSV file of the segment and
rewrites the duration file (Persistence), resets the stopwatch display to
`Stopwatch: 00:00:00`, disables button `k`, enables exactly the next
button in the declared order when one exists, and leaves every other
button, the sample buffer, the start time and the participant identifier
unchanged; after the last segment (`Personality3`, with no successor) no
button becomes enabled. -/
theorem c5_stop_effects (st : AppState) (k : Key) (t t0 : ℚ) (p : String)
    (hrec : st.recording = true) (he : (st.buttons.get k).enabled = true)
    (ht : st.start_time = some t0) (hp : st.participant_id = some p) :
    (step noFail st (.press k t)).recording = false ∧
    (step noFail st (.press k t)).stopwatch_running = false ∧
    (step noFail st (.press k t)).stopwatchLabel = "Stopwatch: 00:00:00" ∧
    ((step noFail st (.press k t)).buttons.get k).enabled = false ∧
    (∀ j : Key, get_next_key k = some j →
      (step noFail st (.press k t)).buttons.get j = ⟨(st.buttons.get j).label, true⟩) ∧
    (∀ j : Key, j ≠ k → get_next_key k ≠ some j →
      (step noFail st (.press k t)).buttons.get j = st.buttons.get j) ∧
    dictGet (step noFail st (.press k t)).files (p ++ "_" ++ k.str ++ ".csv")
      = some (.csv (headerRow :: st.data.map (fun row => row.map Cell.q))) ∧
    dictGet (step noFail st (.press k t)).files (p ++ "_duration.txt")
      = some (.txt (durationLines p (dictSet st.durations k.str (t - t0)))) ∧
    (get_next_key k = none → ∀ j : Key,
      ((step noFail st (.press k t)).buttons.get j).enabled = true →
      (st.buttons.get j).enabled = true ∧ j ≠ k) ∧
    (step noFail st (.press k t)).data = st.data ∧
    (step noFail st (.press k t)).start_time = st.start_time ∧
    (step noFail st (.press k t)).participant_id = st.participant_id := by
  have hs : step noFail st (.press k t) = stopState st k t t0 p := by
    rw [step_press noFail st k t he, toggle_stop_eq noFail st k t t0 p hrec ht hp rfl rfl]
  rw [hs]
  unfold stopState
  refine ⟨rfl, rfl, rfl, ?_, ?_, ?_, ?_, ?_, ?_, rfl, rfl, rfl⟩
  · show ((match get_next_key k with
      | some nk => (st.buttons.set k ⟨"Record " ++ k.str, false⟩).set nk
          ⟨((st.buttons.set k ⟨"Record " ++ k.str, false⟩).get nk).label, true⟩
      | none => st.buttons.set k ⟨"Record " ++ k.str, false⟩).get k).enabled = false
    cases hn : get_next_key k with
    | none => rw [Buttons.get_set, if_pos rfl]
    | some nk =>
      rw [Buttons.get_set, if_neg (Ne.symm (get_next_key_ne_self k nk hn)),
        Buttons.get_set, if_pos rfl]
  · intro j hj
    show (match get_next_key k with
      | some nk => (st.buttons.set k ⟨"Record " ++ k.str, false⟩).set nk
          ⟨((st.buttons.set k ⟨"Record " ++ k.str, false⟩).get nk).label, true⟩
      | none => st.buttons.set k ⟨"Record " ++ k.str, false⟩).get j = _
    rw [hj]
    rw [Buttons.get_set, if_pos rfl, Buttons.get_set,
      if_neg (get_next_key_ne_self k j hj)]
  · intro j hjk hjn
    show (match get_next_key k with
      | some nk => (st.buttons.set k ⟨"Record " ++ k.str, false⟩).set nk
          ⟨((st.buttons.set k ⟨"Record " ++ k.str, false⟩).get nk).label, true⟩
      | none => st.buttons.set k ⟨"Record " ++ k.str, false⟩).get j = _
    cases hn : get_next_key k with
    | none => rw [Buttons.get_set, if_neg hjk]
    | some nk =>
      have hjnk : j ≠ nk := by
        intro hjj
        exact hjn (by rw [hn, hjj])
      rw [Buttons.get_set, if_neg hjnk, Buttons.get_set, if_neg hjk]
  · show dictGet (dictSet (dictSet st.files _ _) (p ++ "_duration.txt") _) _ = _
    rw [dictGet_set_ne _ _ _ _ (csv_ne_txt p k), dictGet_set_self]
  · exact dictGet_set_self _ _ _
  · intro hnone j hj
    rw [hnone] at hj
    dsimp only at hj
    rw [Buttons.get_set] at hj
    by_cases hjk : j = k
    · rw [if_pos hjk] at hj; simp at hj
    · rw [if_neg hjk] at hj
      exact ⟨hj, hjk⟩

/-- C2: starting segment `k` at `t0`, pulling an arbitrary list of samples,
then stopping `k` at `t1` writes the file `<p>_<k>.csv` whose content is
exactly the fixed header row followed by one row per buffered sample in
buffer order, each row being the sample timestamp followed by its channel
values, verbatim. -/
theorem c2_csv_contents (st : AppState) (k : Key) (t0 t1 : ℚ) (p : String)
    (samples : List (ℚ × List ℚ))
    (hrec : st.recording = false) (he : (st.buttons.get k).enabled = true)
    (hp : st.participant_id = some p) :
    dictGet (run noFail st
        (.press k t0 :: (samples.map (fun s => Event.sample s.1 s.2) ++ [.press k t1]))).files
      (p ++ "_" ++ k.str ++ ".csv")
      = some (.csv (headerRow :: samples.map (fun s => (s.1 :: s.2).map Cell.q))) := by
  have h1 : run noFail st
      (.press k t0 :: (samples.map (fun s => Event.sample s.1 s.2) ++ [.press k t1]))
      = run noFail (startState st k t0)
          (samples.map (fun s => Event.sample s.1 s.2) ++ [.press k t1]) := by
    show run noFail (step noFail st (.press k t0)) _ = _
    rw [step_press noFail st k t0 he, toggle_start_eq noFail st k t0 hrec]
  rw [h1, run_append, run_samples noFail (startState st k t0) samples rfl]
  have he2 : ((({ startState st k t0 with
      data := (startState st k t0).data ++ samples.map (fun s => s.1 :: s.2) } : AppState)).buttons.get
        k).enabled = true := by
    show ((st.buttons.set k ⟨"Stop Recording", (st.buttons.get k).enabled⟩).get k).enabled = true
    rw [Buttons.get_set, if_pos rfl]
    exact he
  rw [show run noFail ({ startState st k t0 with
      data := (startState st k t0).data ++ samples.map (fun s => s.1 :: s.2) } : AppState)
        [.press k t1]
      = step noFail ({ startState st k t0 with
          data := (startState st k t0).data ++ samples.map (fun s => s.1 :: s.2) } : AppState)
          (.press k t1) from rfl]
  rw [step_press noFail _ k t1 he2,
    toggle_stop_eq noFail ({ startState st k t0 with
        data := (startState st k t0).data ++ samples.map (fun s => s.1 :: s.2) } : AppState)
      k t1 t0 p (by rfl) (by rfl) (by exact hp) rfl rfl]
  unfold stopState
  show dictGet (dictSet (dictSet _ _ _) (p ++ "_duration.txt") _) _ = _
  rw [dictGet_set_ne _ _ _ _ (csv_ne_txt p k), dictGet_set_self]
  show some (FileData.csv (headerRow ::
    (samples.map (fun s => s.1 :: s.2)).map (fun r => r.map Cell.q))) = _
  rw [List.map_map]
  rfl

theorem c2_csv_contents_witness :
    (initWithEC.recording = false ∧ (initWithEC.buttons.get .EC).enabled = true ∧
      initWithEC.participant_id = some "p") ∧
    dictGet (run noFail initWithEC
        (.press .EC 0 :: ([((1 : ℚ), [(1 : ℚ), 2, 3, 4, 5]), (2, [6, 7, 8, 9, 10])].map
            (fun s => Event.sample s.1 s.2) ++ [.press .EC 3]))).files
      ("p" ++ "_" ++ Key.str .EC ++ ".csv")
      = some (.csv (headerRow :: [((1 : ℚ), [(1 : ℚ), 2, 3, 4, 5]), (2, [6, 7, 8, 9, 10])].map
          (fun s => (s.1 :: s.2).map Cell.q))) :=
  ⟨⟨by with_unfolding_all rfl, by with_unfolding_all rfl, by with_unfolding_all rfl⟩,
   c2_csv_contents initWithEC .EC 0 3 "p" [(1, [1, 2, 3, 4, 5]), (2, [6, 7, 8, 9, 10])]
     (by with_unfolding_all rfl) (by with_unfolding_all rfl) (by with_unfolding_all rfl)⟩

/-- A reachable state in which both the EC and the EO buttons are enabled
(EC re-enabled by a key release after EC completed once). -/
def twoEnabled : AppState :=
  run noFail initState
    [.connect, .keyRelease "p", .press .EC 0, .press .EC 1, .keyRelease "p"]

/-- C10: while a recording is in progress, pressing any enabled button `k2`
runs the stop path under `k2`: the buffered samples are saved to
`<p>_<k2>.csv` and the duration is recorded under `k2`, regardless of
which button `k1` started the recording. -/
theorem c10_shared_flag_stop (st : AppState) (k1 k2 : Key) (t0 t1 : ℚ) (p : String)
    (samples : List (ℚ × List ℚ))
    (hrec : st.recording = false) (he1 : (st.buttons.get k1).enabled = true)
    (he2 : (st.buttons.get k2).enabled = true) (hp : st.participant_id = some p) :
    dictGet (run noFail st
        (.press k1 t0 :: (samples.map (fun s => Event.sample s.1 s.2) ++ [.press k2 t1]))).files
      (p ++ "_" ++ k2.str ++ ".csv")
      = some (.csv (headerRow :: samples.map (fun s => (s.1 :: s.2).map Cell.q))) ∧
    dictGet (run noFail st
        (.press k1 t0 :: (samples.map (fun s => Event.sample s.1 s.2) ++ [.press k2 t1]))).durations
      k2.str = some (t1 - t0) := by
  have h1 : run noFail st
      (.press k1 t0 :: (samples.map (fun s => Event.sample s.1 s.2) ++ [.press k2 t1]))
      = run noFail (startState st k1 t0)
          (samples.map (fun s => Event.sample s.1 s.2) ++ [.press k2 t1]) := by
    show run noFail (step noFail st (.press k1 t0)) _ = _
    rw [step_press noFail st k1 t0 he1, toggle_start_eq noFail st k1 t0 hrec]
  rw [h1, run_append, run_samples noFail (startState st k1 t0) samples rfl]
  have hmid : ((({ startState st k1 t0 with
      data := (startState st k1 t0).data ++ samples.map (fun s => s.1 :: s.2) } : AppState)).buttons.get
        k2).enabled = true := by
    show ((st.buttons.set k1 ⟨"Stop Recording", (st.buttons.get k1).enabled⟩).get k2).enabled = true
    rw [Buttons.get_set]
    by_cases hkk : k2 = k1
    · rw [if_pos hkk]
      rw [hkk] at he2
      exact he1
    · rw [if_neg hkk]
      exact he2
  rw [show run noFail ({ startState st k1 t0 with
      data := (startState st k1 t0).data ++ samples.map (fun s => s.1 :: s.2) } : AppState)
        [.press k2 t1]
      = step noFail ({ startState st k1 t0 with
          data := (startState st k1 t0).data ++ samples.map (fun s => s.1 :: s.2) } : AppState)
          (.press k2 t1) from rfl]
  rw [step_press noFail _ k2 t1 hmid,
    toggle_stop_eq noFail ({ startState st k1 t0 with
        data := (startState st k1 t0).data ++ samples.map (fun s => s.1 :: s.2) } : AppState)
      k2 t1 t0 p (by rfl) (by rfl) (by exact hp) rfl rfl]
  unfold stopState
  constructor
  · show dictGet (dictSet (dictSet _ _ _) (p ++ "_duration.txt") _) _ = _
    rw [dictGet_set_ne _ _ _ _ (csv_ne_txt p k2), dictGet_set_self]
    show some (FileData.csv (headerRow ::
      (samples.map (fun s => s.1 :: s.2)).map (fun r => r.map Cell.q))) = _
    rw [List.map_map]
    rfl
  · exact dictGet_set_self _ _ _

theorem c10_shared_flag_stop_witness :
    (twoEnabled.recording = false ∧ (twoEnabled.buttons.get .EC).enabled = true ∧
      (twoEnabled.buttons.get .EO).enabled = true ∧ twoEnabled.participant_id = some "p") ∧
    dictGet (run noFail twoEnabled
        (.press .EC 0 :: ([((1 : ℚ), [(1 : ℚ), 2, 3, 4, 5])].map
            (fun s => Event.sample s.1 s.2) ++ [.press .EO 2]))).files
      ("p" ++ "_" ++ Key.str .EO ++ ".csv")
      = some (.csv (headerRow :: [((1 : ℚ), [(1 : ℚ), 2, 3, 4, 5])].map
          (fun s => (s.1 :: s.2).map Cell.q))) :=
  ⟨⟨by with_unfolding_all rfl, by with_unfolding_all rfl, by with_unfolding_all rfl,
    by with_unfolding_all rfl⟩,
   (c10_shared_flag_stop twoEnabled .EC .EO 0 2 "p" [(1, [1, 2, 3, 4, 5])]
     (by with_unfolding_all rfl) (by with_unfolding_all rfl) (by with_unfolding_all rfl)
     (by with_unfolding_all rfl)).1⟩

/-- A reachable state that is recording segment EC: connected, participant
`p`, EC pressed at time 0, one sample buffered. -/
def recState : AppState :=
  run noFail initState
    [.connect, .keyRelease "p", .press .EC 0, .sample 1 [1, 2, 3, 4, 5]]

/-- C3: every segment completion rewrites `<p>_duration.txt` in full: the
file then holds exactly the line `Participant ID: <p>` followed by one
line per completed segment in completion order; concretely, after the
sequence connect, enter `p`, record EC from 0 to 1.5, record EO from 1.5
to 4, the file holds exactly two data lines, EC (1.50 seconds) first and
EO (2.50 seconds) second. -/
theorem c3_duration_file (st : AppState) (k : Key) (t t0 : ℚ) (p : String)
    (hrec : st.recording = true) (he : (st.buttons.get k).enabled = true)
    (ht : st.start_time = some t0) (hp : st.participant_id = some p) :
    (dictGet (step noFail st (.press k t)).files (p ++ "_duration.txt")
      = some (.txt (("Participant ID: " ++ p) ::
          (dictSet st.durations k.str (t - t0)).map durationLine))) ∧
    dictGet (run noFail initState
        [.connect, .keyRelease "p", .press .EC 0, .press .EC (3 / 2),
         .press .EO (3 / 2), .press .EO 4]).files "p_duration.txt"
      = some (.txt ["Participant ID: p", "EC: 1.50 seconds", "EO: 2.50 seconds"]) := by
  constructor
  · have hs : step noFail st (.press k t) = stopState st k t t0 p := by
      rw [step_press noFail st k t he, toggle_stop_eq noFail st k t t0 p hrec ht hp rfl rfl]
    rw [hs]
    unfold stopState
    exact dictGet_set_self _ _ _
  · with_unfolding_all rfl

theorem c3_duration_file_witness :
    (recState.recording = true ∧ (recState.buttons.get .EC).enabled = true ∧
      recState.start_time = some 0 ∧ recState.participant_id = some "p") ∧
    dictGet (step noFail recState (.press .EC 2)).files ("p" ++ "_duration.txt")
      = some (.txt (("Participant ID: " ++ "p") ::
          (dictSet recState.durations (Key.str .EC) (2 - 0)).map durationLine)) :=
  ⟨⟨by with_unfolding_all rfl, by with_unfolding_all rfl, by with_unfolding_all rfl,
    by with_unfolding_all rfl⟩,
   (c3_duration_file recState .EC 2 0 "p" (by with_unfolding_all rfl)
     (by with_unfolding_all rfl) (by with_unfolding_all rfl) (by with_unfolding_all rfl)).1⟩

/-- A reachable state recording segment EC with no samples pulled yet. -/
def emptyRecState : AppState :=
  run noFail initState [.connect, .keyRelease "p", .press .EC 0]

theorem roundHalfEven_zero (y : ℚ) (h0 : 0 ≤ y) (h1 : y < 1 / 2) :
    roundHalfEven y = 0 := by
  have hf : ratFloor y = 0 := by
    unfold ratFloor
    have hle : 0 ≤ Rat.floor y := Rat.le_floor.mpr (by exact_mod_cast h0)
    have hlt : ¬ (1 ≤ Rat.floor y) := by
      intro hh
      have h2 := Rat.le_floor.mp hh
      push_cast at h2
      linarith
    omega
  simp only [roundHalfEven, hf]
  rw [if_pos]
  push_cast
  linarith

theorem format2_small (x : ℚ) (h0 : 0 ≤ x) (h1 : x < 1 / 200) :
    format2 x = "0.00" := by
  have hr : roundHalfEven (x * 100) = 0 := by
    apply roundHalfEven_zero
    · positivity
    · linarith
  simp only [format2, hr]
  norm_num [twoDigits]
  decide

/-- C4: stopping a segment with an empty sample buffer still saves: the CSV
file holds only the header row, and the duration file gains one line for
the segment whose rounded duration is `0.00 seconds` (the elapsed time
being below half of 0.01 s). -/
theorem c4_empty_save (st : AppState) (k : Key) (t t0 : ℚ) (p : String)
    (hrec : st.recording = true) (he : (st.buttons.get k).enabled = true)
    (ht : st.start_time = some t0) (hp : st.participant_id = some p)
    (hdata : st.data = []) (habsent : dictGet st.durations k.str = none)
    (hd0 : 0 ≤ t - t0) (hd1 : t - t0 < 1 / 200) :
    dictGet (step noFail st (.press k t)).files (p ++ "_" ++ k.str ++ ".csv")
      = some (.csv [headerRow]) ∧
    dictGet (step noFail st (.press k t)).files (p ++ "_duration.txt")
      = some (.txt (("Participant ID: " ++ p) ::
          (st.durations.map durationLine ++
            [k.str ++ ": " ++ format2 (t - t0) ++ " seconds"]))) ∧
    format2 (t - t0) = "0.00" := by
  have hs : step noFail st (.press k t) = stopState st k t t0 p := by
    rw [step_press noFail st k t he, toggle_stop_eq noFail st k t t0 p hrec ht hp rfl rfl]
  rw [hs]
  unfold stopState
  refine ⟨?_, ?_, format2_small (t - t0) hd0 hd1⟩
  · show dictGet (dictSet (dictSet _ _ _) (p ++ "_duration.txt") _) _ = _
    rw [dictGet_set_ne _ _ _ _ (csv_ne_txt p k), dictGet_set_self, hdata]
    rfl
  · rw [dictGet_set_self]
    rw [dictSet_absent st.durations k.str (t - t0) habsent]
    unfold durationLines
    rw [List.map_append]
    rfl

theorem c4_empty_save_witness :
    (emptyRecState.recording = true ∧ (emptyRecState.buttons.get .EC).enabled = true ∧
      emptyRecState.start_time = some 0 ∧ emptyRecState.participant_id = some "p" ∧
      emptyRecState.data = [] ∧ dictGet emptyRecState.durations (Key.str .EC) = none ∧
      (0 : ℚ) ≤ 1 / 300 - 0 ∧ (1 / 300 : ℚ) - 0 < 1 / 200) ∧
    dictGet (step noFail emptyRecState (.press .EC (1 / 300))).files
      ("p" ++ "_" ++ Key.str .EC ++ ".csv") = some (.csv [headerRow]) :=
  ⟨⟨by with_unfolding_all rfl, by with_unfolding_all rfl, by with_unfolding_all rfl,
    by with_unfolding_all rfl, by with_unfolding_all rfl, by with_unfolding_all rfl,
    by norm_num, by norm_num⟩,
   (c4_empty_save emptyRecState .EC (1 / 300) 0 "p" (by with_unfolding_all rfl)
     (by with_unfolding_all rfl) (by with_unfolding_all rfl) (by with_unfolding_all rfl)
     (by with_unfolding_all rfl) (by with_unfolding_all rfl)
     (by norm_num) (by norm_num)).1⟩

/-- Failure model for C8: `open` raises exactly on the duration file. -/
def failTxt (p : String) : String → Bool :=
  fun n => n == p ++ "_duration.txt"

/-- C8: when writing the duration file raises, the exception escapes the
callback (uncaught: the exception counter grows and no confirmation is
shown), yet the durations mapping was already mutated and the CSV data
file already written, while the duration file, the stopwatch display and
the buttons are untouched — the save is not atomic and nothing is rolled
back. -/
theorem c8_save_not_atomic (st : AppState) (k : Key) (t t0 : ℚ) (p : String)
    (hrec : st.recording = true) (he : (st.buttons.get k).enabled = true)
    (ht : st.start_time = some t0) (hp : st.participant_id = some p) :
    (step (failTxt p) st (.press k t)).exn = st.exn + 1 ∧
    dictGet (step (failTxt p) st (.press k t)).files (p ++ "_" ++ k.str ++ ".csv")
      = some (.csv (headerRow :: st.data.map (fun row => row.map Cell.q))) ∧
    dictGet (step (failTxt p) st (.press k t)).files (p ++ "_duration.txt")
      = dictGet st.files (p ++ "_duration.txt") ∧
    (step (failTxt p) st (.press k t)).durations = dictSet st.durations k.str (t - t0) ∧
    (step (failTxt p) st (.press k t)).stopwatchLabel = st.stopwatchLabel ∧
    (step (failTxt p) st (.press k t)).buttons = st.buttons ∧
    (step (failTxt p) st (.press k t)).confirms = st.confirms ∧
    (step (failTxt p) st (.press k t)).recording = false ∧
    (step (failTxt p) st (.press k t)).stopwatch_running = false := by
  have hfcsv : failTxt p (p ++ "_" ++ k.str ++ ".csv") = false := by
    unfold failTxt
    exact beq_eq_false_iff_ne.mpr (csv_ne_txt p k)
  have hftxt : failTxt p (p ++ "_duration.txt") = true := by
    unfold failTxt
    simp
  have hs : step (failTxt p) st (.press k t) =
      { st with
        recording := false
        stopwatch_running := false
        durations := dictSet st.durations k.str (t - t0)
        files := dictSet st.files (p ++ "_" ++ k.str ++ ".csv")
          (.csv (headerRow :: st.data.map (fun r => r.map Cell.q)))
        exn := st.exn + 1 } := by
    rw [step_press (failTxt p) st k t he,
      toggle_stop_txtfail_eq (failTxt p) st k t t0 p hrec ht hp hfcsv hftxt]
  rw [hs]
  refine ⟨rfl, ?_, ?_, rfl, rfl, rfl, rfl, rfl, rfl⟩
  · exact dictGet_set_self _ _ _
  · exact dictGet_set_ne _ _ _ _ (Ne.symm (csv_ne_txt p k))

theorem c8_save_not_atomic_witness :
    (recState.recording = true ∧ (recState.buttons.get .EC).enabled = true ∧
      recState.start_time = some 0 ∧ recState.participant_id = some "p") ∧
    (step (failTxt "p") recState (.press .EC 2)).exn = recState.exn + 1 :=
  ⟨⟨by with_unfolding_all rfl, by with_unfolding_all rfl, by with_unfolding_all rfl,
    by with_unfolding_all rfl⟩,
   (c8_save_not_atomic recState .EC 2 0 "p" (by with_unfolding_all rfl)
     (by with_unfolding_all rfl) (by with_unfolding_all rfl) (by with_unfolding_all rfl)).1⟩

theorem c5_stop_effects_witness :
    (recState.recording = true ∧ (recState.buttons.get .EC).enabled = true ∧
      recState.start_time = some 0 ∧ recState.participant_id = some "p") ∧
    (step noFail recState (.press .EC 2)).recording = false :=
  ⟨⟨by with_unfolding_all rfl, by with_unfolding_all rfl, by with_unfolding_all rfl,
    by with_unfolding_all rfl⟩,
   (c5_stop_effects recState .EC 2 0 "p" (by with_unfolding_all rfl)
     (by with_unfolding_all rfl) (by with_unfolding_all rfl) (by with_unfolding_all rfl)).1⟩

/-- C1 as stated is false on the code: after the trace connect, type `p`,
record EC (press, press), type a key again (re-enabling EC through
`enable_buttons`), press EC to start a new recording, then press the
still-enabled EO button, the Personality1 control is enabled even though
segment EO was never started (no press of EO ever ran the start branch);
EO only stopped a recording that EC had started. -/
theorem c1_counterexample :
    ((run noFail initState
        [.connect, .keyRelease "p", .press .EC 0, .press .EC 1, .keyRelease "p",
         .press .EC 2, .press .EO 3]).buttons.get .P1).enabled = true ∧
    get_next_key .EO = some .P1 ∧
    startPressIn noFail initState
      [.connect, .keyRelease "p", .press .EC 0, .press .EC 1, .keyRelease "p",
       .press .EC 2, .press .EO 3] .EO = false ∧
    stopPressIn noFail initState
      [.connect, .keyRelease "p", .press .EC 0, .press .EC 1, .keyRelease "p",
       .press .EC 2, .press .EO 3] .EO = true := by
  refine ⟨?_, rfl, ?_, ?_⟩ <;> with_unfolding_all rfl

/-- C1 (amended): for every event sequence and every filesystem behaviour,
a segment control with a predecessor in the declared order is enabled only
after a press of the control of the predecessor occurred while a recording
was in progress (a stop action carried out through that button —
which, because of the shared recording flag, need not be a recording that
this predecessor started), and no segment control is ever enabled before
the stored participant identifier has been non-empty. -/
theorem c1_enable_order_amended :
    (∀ (fsErr : String → Bool) (es : List Event) (k k' : Key),
      get_next_key k' = some k →
      ((run fsErr initState es).buttons.get k).enabled = true →
      stopPressIn fsErr initState es k' = true) ∧
    (∀ (fsErr : String → Bool) (es : List Event) (k : Key),
      ((run fsErr initState es).buttons.get k).enabled = true →
      pidEverIn fsErr initState es = true) := by
  constructor
  · intro fsErr es k k' hn h
    rcases enabled_run_cases fsErr es initState k k' hn h with h1 | h1
    · exact h1
    · exfalso
      cases k <;> simp [initState, Buttons.get] at h1
  · intro fsErr es k h
    have h2 := enabled_anyEnabled _ k h
    rcases anyEnabled_run fsErr es initState h2 with h1 | h1
    · exact h1
    · exfalso
      simp [anyEnabled, initState] at h1

theorem c1_enable_order_amended_witness :
    (get_next_key .EC = some .EO ∧
      ((run noFail initState
        [.connect, .keyRelease "p", .press .EC 0, .press .EC 1]).buttons.get .EO).enabled
        = true) ∧
    stopPressIn noFail initState
      [.connect, .keyRelease "p", .press .EC 0, .press .EC 1] .EC = true ∧
    pidEverIn noFail initState
      [.connect, .keyRelease "p", .press .EC 0, .press .EC 1] = true :=
  ⟨⟨rfl, by with_unfolding_all rfl⟩,
   c1_enable_order_amended.1 noFail
     [.connect, .keyRelease "p", .press .EC 0, .press .EC 1] .EO .EC rfl
     (by with_unfolding_all rfl),
   c1_enable_order_amended.2 noFail
     [.connect, .keyRelease "p", .press .EC 0, .press .EC 1] .EO
     (by with_unfolding_all rfl)⟩
